import Mathlib

/-!
Shallow embedding of the monorepo sync tool (src/main.rs, src/config.rs).

Strings and paths are Lean `String`s; `Path::join` is modelled by inserting a
single separator. The persisted config file is modelled at the level of the
JSON document (an inductive `Json` value): the literal JSON text mechanics of
serde are out of scope per the spec, but the schema (object with a
`submodules` array of objects with `name`, `path`, `include`, `exclude`
fields) is modelled faithfully, with an executable encoder and decoder.
Filesystem facts (existence of directories, success of directory creation,
exit status of the external rsync process) are inputs of the world state.
-/

/-- Error kinds used by the program, mirroring the `std::io::ErrorKind`
values that `main.rs` and `config.rs` construct. -/
inductive IoErrorKind where
  | notFound
  | invalidInput
  | invalidData
  | otherError
deriving DecidableEq

/-- An `std::io::Error`: a kind together with the message text. -/
structure IoError where
  kind : IoErrorKind
  msg : String
deriving DecidableEq

/-- `SubmoduleConfig` from src/config.rs: one configured submodule. -/
structure SubmoduleConfig where
  name : String
  path : String
  includeRules : List String
  excludeRules : List String
deriving DecidableEq

/-- `AppConfig` from src/config.rs: the registry of submodules. -/
structure AppConfig where
  submodules : List SubmoduleConfig
deriving DecidableEq

/-- JSON documents, as far as the config schema needs them. -/
inductive Json where
  | str : String → Json
  | arr : List Json → Json
  | obj : List (String × Json) → Json

/-- Split a character list at every comma, as Rust `str::split(',')` does:
the empty input yields one empty piece, and consecutive commas yield empty
pieces. -/
def splitCommaChars : List Char → List (List Char)
  | [] => [[]]
  | c :: rest =>
    if c = ',' then [] :: splitCommaChars rest
    else
      match splitCommaChars rest with
      | [] => [[c]]
      | p :: ps => (c :: p) :: ps

/-- Rust `str::trim`, modelled over ASCII whitespace: drop whitespace from
both ends of a character list. -/
def trimChars (cs : List Char) : List Char :=
  ((cs.dropWhile Char.isWhitespace).reverse.dropWhile Char.isWhitespace).reverse

/-- `s.split(',').map(|x| x.trim().to_string())`, the list-of-names parsing
shared by `init_monorepo` and `sync_submodules` in src/main.rs. -/
def rustSplitTrim (s : String) : List String :=
  (splitCommaChars s.data).map (fun cs => String.mk (trimChars cs))

/-- Serde encoding of one `SubmoduleConfig` as a JSON object, fields in
struct declaration order. -/
def encodeEntry (s : SubmoduleConfig) : Json :=
  Json.obj [("name", Json.str s.name), ("path", Json.str s.path),
    ("include", Json.arr (s.includeRules.map Json.str)),
    ("exclude", Json.arr (s.excludeRules.map Json.str))]

/-- Serde encoding of the whole registry. -/
def encodeAppConfig (c : AppConfig) : Json :=
  Json.obj [("submodules", Json.arr (c.submodules.map encodeEntry))]

/-- First field with the given key in a JSON object body. -/
def getField : List (String × Json) → String → Option Json
  | [], _ => none
  | (k, v) :: rest, key => if k = key then some v else getField rest key

/-- Decode a JSON string. -/
def decodeStr : Json → Option String
  | Json.str s => some s
  | _ => none

/-- Apply a partial decoder to every element, failing if any element fails. -/
def mapOption (f : α → Option β) : List α → Option (List β)
  | [] => some []
  | a :: rest =>
    match f a, mapOption f rest with
    | some b, some bs => some (b :: bs)
    | _, _ => none

/-- Decode a JSON array of strings. -/
def decodeStrList : Json → Option (List String)
  | Json.arr xs => mapOption decodeStr xs
  | _ => none

/-- Decode one submodule entry from its JSON object. -/
def decodeEntry : Json → Option SubmoduleConfig
  | Json.obj fields =>
    match getField fields "name", getField fields "path" with
    | some nj, some pj =>
      match decodeStr nj, decodeStr pj with
      | some n, some p =>
        match getField fields "include", getField fields "exclude" with
        | some ij, some ej =>
          match decodeStrList ij, decodeStrList ej with
          | some incs, some excs => some ⟨n, p, incs, excs⟩
          | _, _ => none
        | _, _ => none
      | _, _ => none
    | _, _ => none
  | _ => none

/-- Decode the whole registry document. -/
def decodeAppConfig : Json → Option AppConfig
  | Json.obj fields =>
    match getField fields "submodules" with
    | some (Json.arr xs) =>
      match mapOption decodeEntry xs with
      | some subs => some ⟨subs⟩
      | none => none
    | _ => none
  | _ => none

/-- `load_or_create_config` from src/config.rs, as a function of the stored
config document: an absent file yields the default (empty) registry, a
present file is parsed, and a parse failure is an `InvalidData` error. -/
def load_or_create_config (file : Option Json) : Except IoError AppConfig :=
  match file with
  | none => Except.ok ⟨[]⟩
  | some j =>
    match decodeAppConfig j with
    | some c => Except.ok c
    | none => Except.error ⟨IoErrorKind.invalidData, "JSON parse error"⟩

/-- World state seen by `init_monorepo`: whether the hidden `.monorepo`
directory exists, whether creating it would succeed, the stored config
document (if any), and whether writing the config file would succeed. -/
structure InitWorld where
  configDirExists : Bool
  createDirOk : Bool
  configFile : Option Json
  saveOk : Bool

/-- `save_config` from src/config.rs: overwrite the stored document with the
encoding of the registry, or fail with an I/O error. -/
def save_config (w : InitWorld) (c : AppConfig) : InitWorld × Except IoError Unit :=
  if w.saveOk then ({ w with configFile := some (encodeAppConfig c) }, Except.ok ())
  else (w, Except.error ⟨IoErrorKind.otherError, "failed to write config file"⟩)

/-- The default entry `init_monorepo` creates for a new name: path equal to
the name, includes for lib, pubspec.yaml and test, exclude everything else. -/
def defaultEntry (name : String) : SubmoduleConfig :=
  ⟨name, name, ["lib/***", "pubspec.yaml", "test/***"], ["*"]⟩

/-- The body of the registration loop in `init_monorepo`: a name already
present is left untouched, otherwise a default entry is appended. -/
def registerName (c : AppConfig) (name : String) : AppConfig :=
  if c.submodules.any (fun s => s.name == name) then c
  else ⟨c.submodules ++ [defaultEntry name]⟩

/-- The full registration loop over a list of candidate names. -/
def registerNames (c : AppConfig) (names : List String) : AppConfig :=
  names.foldl registerName c

/-- `init_monorepo` from line 33 of src/main.rs, given the parsed input and
continuing after the config-directory step. -/
def initAfterDir (submodules_str : String) (w : InitWorld) :
    InitWorld × Except IoError Unit :=
  let names := rustSplitTrim submodules_str
  if names.isEmpty || names.any (fun s => s.isEmpty) then
    (w, Except.error ⟨IoErrorKind.invalidInput,
      "Submodule list cannot be empty or contain empty names."⟩)
  else
    match load_or_create_config w.configFile with
    | Except.error e => (w, Except.error e)
    | Except.ok c => save_config w (registerNames c names)

/-- `init_monorepo` from src/main.rs: create the `.monorepo` directory if
absent, validate the comma-separated name list, load the registry, register
each name, and save. -/
def init_monorepo (submodules_str : String) (w : InitWorld) :
    InitWorld × Except IoError Unit :=
  if w.configDirExists then initAfterDir submodules_str w
  else if w.createDirOk then
    initAfterDir submodules_str { w with configDirExists := true }
  else (w, Except.error ⟨IoErrorKind.otherError, "failed to create directory"⟩)

/-- An invocation of the external rsync tool, recorded as its argument
list. -/
abbrev RsyncCall := List String

/-- `Path::join` for the relative, separator-free components this program
joins: insert one separator. -/
def pathJoin (a b : String) : String := a ++ "/" ++ b

/-- Per-submodule outcome of the orchestration loop, following the print
statements of `sync_submodules`. -/
inductive Outcome where
  | synced
  | skippedMissingSource
  | skippedBadTarget
  | failed
deriving DecidableEq

/-- Result of a `sync_submodules` run that returns `Ok`, keeping the three
distinct early-return messages of src/main.rs apart from a completed loop. -/
inductive SyncResult where
  | nothingToSyncEmpty
  | noMatching
  | noneConfiguredToSync
  | completed
deriving DecidableEq

/-- World state seen by `sync_submodules`: the config directory and file,
the current directory and its parent, and filesystem / external-process
facts keyed by path or by argument list. `sourceOk p` states that path `p`
exists and is a directory; `targetIsDir` is consulted for targets that
already exist; `createTargetOk` is whether `create_dir_all` succeeds;
`rsyncSpawnOk` is whether the rsync process can be started at all and
`rsyncExit` its exit status. -/
structure SyncWorld where
  configDirExists : Bool
  configFile : Option Json
  currentDir : String
  parentDir : Option String
  sourceOk : String → Bool
  targetExists : String → Bool
  targetIsDir : String → Bool
  createTargetOk : String → Bool
  rsyncSpawnOk : List String → Bool
  rsyncExit : List String → Int

/-- The rsync argument list built in `sync_submodules` lines 163-183: the
fixed flags, then one `--include=` per include rule in order, then one
`--exclude=` per exclude rule in order, then the source path with a trailing
separator and the target path. The rule arguments are accumulated by a left
fold, mirroring the sequential `arg` pushes of the source. -/
def buildRsyncArgs (src tgt : String) (sub : SubmoduleConfig) : List String :=
  let base := ["-a", "--delete", "--times", "--no-perms", "--no-owner", "--no-group"]
  let withInc := sub.includeRules.foldl (fun acc p => acc ++ ["--include=" ++ p]) base
  let withExc := sub.excludeRules.foldl (fun acc p => acc ++ ["--exclude=" ++ p]) withInc
  withExc ++ [src ++ "/", tgt]

/-- The body of the per-submodule loop in `sync_submodules` (lines 134-196):
skip when the source path is missing or not a directory; create the target
if absent, propagating a creation failure as an error; skip when the target
is not a directory; otherwise invoke rsync once and record success or
failure from its exit status. Returns the rsync invocations made and either
the entry outcome or the propagated error. -/
def processSubmodule (w : SyncWorld) (parent : String) (sub : SubmoduleConfig) :
    List RsyncCall × Except IoError Outcome :=
  let srcPath := pathJoin w.currentDir sub.path
  if ¬ w.sourceOk srcPath then ([], Except.ok Outcome.skippedMissingSource)
  else
    let tgtPath := pathJoin parent sub.name
    if ¬ w.targetExists tgtPath ∧ ¬ w.createTargetOk tgtPath then
      ([], Except.error ⟨IoErrorKind.otherError, "failed to create target directory"⟩)
    else if w.targetExists tgtPath ∧ ¬ w.targetIsDir tgtPath then
      ([], Except.ok Outcome.skippedBadTarget)
    else
      let args := buildRsyncArgs srcPath tgtPath sub
      if ¬ w.rsyncSpawnOk args then
        ([], Except.error ⟨IoErrorKind.otherError, "failed to spawn rsync"⟩)
      else if w.rsyncExit args = 0 then ([args], Except.ok Outcome.synced)
      else ([args], Except.ok Outcome.failed)

/-- The orchestration loop of `sync_submodules` over the working set:
collect rsync invocations and per-entry outcomes; an error returned by the
per-submodule step aborts the loop and is propagated, leaving the remaining
entries unprocessed. -/
def syncLoop (w : SyncWorld) (parent : String) :
    List SubmoduleConfig → List RsyncCall × List (String × Outcome) × Option IoError
  | [] => ([], [], none)
  | sub :: rest =>
    match processSubmodule w parent sub with
    | (calls, Except.ok oc) =>
      let r := syncLoop w parent rest
      (calls ++ r.1, (sub.name, oc) :: r.2.1, r.2.2)
    | (calls, Except.error e) => (calls, [], some e)

/-- Package the loop trace as the result of `sync_submodules`. -/
def runWorkingSet (w : SyncWorld) (parent : String) (sel : List SubmoduleConfig) :
    List RsyncCall × List (String × Outcome) × Except IoError SyncResult :=
  match syncLoop w parent sel with
  | (calls, outs, none) => (calls, outs, Except.ok SyncResult.completed)
  | (calls, outs, some e) => (calls, outs, Except.error e)

/-- `sync_submodules` from line 74 of src/main.rs: require the config
directory, load the registry (empty registry returns success immediately),
require a parent directory, validate and apply the optional comma-separated
name filter, and run the loop over the working set. Returns the rsync
invocations made, the per-entry outcomes reported, and the call result. -/
def sync_submodules (filterStr : Option String) (w : SyncWorld) :
    List RsyncCall × List (String × Outcome) × Except IoError SyncResult :=
  if ¬ w.configDirExists then
    ([], [], Except.error ⟨IoErrorKind.notFound, "Monorepo not initialized. Run 'init' first."⟩)
  else
    match load_or_create_config w.configFile with
    | Except.error e => ([], [], Except.error e)
    | Except.ok cfg =>
      if cfg.submodules.isEmpty then ([], [], Except.ok SyncResult.nothingToSyncEmpty)
      else
        match w.parentDir with
        | none =>
          ([], [], Except.error ⟨IoErrorKind.notFound,
            "Failed to get parent directory of the monorepo."⟩)
        | some parent =>
          match filterStr with
          | some s =>
            let names := rustSplitTrim s
            if names.any (fun n => n.isEmpty) then
              ([], [], Except.error ⟨IoErrorKind.invalidInput,
                "Submodule list for sync cannot contain empty names."⟩)
            else
              let sel := cfg.submodules.filter (fun e => names.contains e.name)
              if sel.isEmpty then ([], [], Except.ok SyncResult.noMatching)
              else runWorkingSet w parent sel
          | none =>
            if cfg.submodules.isEmpty then
              ([], [], Except.ok SyncResult.noneConfiguredToSync)
            else runWorkingSet w parent cfg.submodules

deriving instance DecidableEq for Except

/-- Decoding a JSON array built from a string list recovers the list. -/
theorem mapOption_decodeStr_str (l : List String) :
    mapOption decodeStr (l.map Json.str) = some l := by
  induction l with
  | nil => rfl
  | cons a t ih => simp [mapOption, decodeStr, ih]

/-- Decoding the encoding of one submodule entry recovers the entry. -/
theorem decodeEntry_encodeEntry (s : SubmoduleConfig) :
    decodeEntry (encodeEntry s) = some s := by
  simp [decodeEntry, encodeEntry, getField, decodeStr, decodeStrList,
    mapOption_decodeStr_str]

/-- Decoding an encoded entry list recovers the list. -/
theorem mapOption_decodeEntry_encodeEntry (l : List SubmoduleConfig) :
    mapOption decodeEntry (l.map encodeEntry) = some l := by
  induction l with
  | nil => rfl
  | cons a t ih => simp [mapOption, decodeEntry_encodeEntry, ih]

/-- Decoding the encoding of a registry recovers the registry. -/
theorem decodeAppConfig_encodeAppConfig (c : AppConfig) :
    decodeAppConfig (encodeAppConfig c) = some c := by
  simp [decodeAppConfig, encodeAppConfig, getField,
    mapOption_decodeEntry_encodeEntry]

/-- Loading a stored encoded registry succeeds with that registry. -/
theorem load_encodeAppConfig (c : AppConfig) :
    load_or_create_config (some (encodeAppConfig c)) = Except.ok c := by
  simp [load_or_create_config, decodeAppConfig_encodeAppConfig]

/-- Pushing mapped elements one at a time onto an accumulator is an append
of the mapped list. -/
theorem foldl_push_eq_map (f : α → β) (init : List β) (l : List α) :
    l.foldl (fun acc p => acc ++ [f p]) init = init ++ l.map f := by
  induction l generalizing init with
  | nil => simp
  | cons a t ih => simp [List.foldl_cons, ih]

/-- Closed form of the rsync argument list: fixed flags, include arguments
in configured order, exclude arguments in configured order, source with a
trailing separator, then the target. -/
theorem buildRsyncArgs_spec (src tgt : String) (sub : SubmoduleConfig) :
    buildRsyncArgs src tgt sub =
      ["-a", "--delete", "--times", "--no-perms", "--no-owner", "--no-group"]
        ++ sub.includeRules.map (fun p => "--include=" ++ p)
        ++ sub.excludeRules.map (fun p => "--exclude=" ++ p)
        ++ [src ++ "/", tgt] := by
  simp [buildRsyncArgs, foldl_push_eq_map]

/-- A submodule whose source is a directory and whose target is usable (an
existing directory, or absent but creatable) and whose rsync process can be
spawned invokes rsync exactly once and yields `synced` or `failed` from the
exit status. -/
theorem processSubmodule_run (w : SyncWorld) (parent : String) (sub : SubmoduleConfig)
    (h1 : w.sourceOk (pathJoin w.currentDir sub.path) = true)
    (h2 : w.targetExists (pathJoin parent sub.name) = true →
      w.targetIsDir (pathJoin parent sub.name) = true)
    (h3 : w.targetExists (pathJoin parent sub.name) = false →
      w.createTargetOk (pathJoin parent sub.name) = true)
    (h4 : w.rsyncSpawnOk
      (buildRsyncArgs (pathJoin w.currentDir sub.path) (pathJoin parent sub.name) sub) = true) :
    processSubmodule w parent sub =
      ([buildRsyncArgs (pathJoin w.currentDir sub.path) (pathJoin parent sub.name) sub],
       Except.ok (if w.rsyncExit (buildRsyncArgs (pathJoin w.currentDir sub.path)
          (pathJoin parent sub.name) sub) = 0 then Outcome.synced else Outcome.failed)) := by
  cases hte : w.targetExists (pathJoin parent sub.name) with
  | true =>
    simp [processSubmodule, h1, hte, h2 hte, h4]
    split <;> rfl
  | false =>
    simp [processSubmodule, h1, hte, h3 hte, h4]
    split <;> rfl

/-- A submodule whose source path is missing or not a directory is skipped
with no rsync invocation. -/
theorem processSubmodule_missing_source (w : SyncWorld) (parent : String)
    (sub : SubmoduleConfig)
    (h : w.sourceOk (pathJoin w.currentDir sub.path) = false) :
    processSubmodule w parent sub = ([], Except.ok Outcome.skippedMissingSource) := by
  simp [processSubmodule, h]

/-- A per-submodule step that yields an outcome lets the loop continue with
the remaining entries. -/
theorem syncLoop_cons_ok (w : SyncWorld) (parent : String) (sub : SubmoduleConfig)
    (rest : List SubmoduleConfig) (calls : List RsyncCall) (oc : Outcome)
    (h : processSubmodule w parent sub = (calls, Except.ok oc)) :
    syncLoop w parent (sub :: rest) =
      (calls ++ (syncLoop w parent rest).1,
       (sub.name, oc) :: (syncLoop w parent rest).2.1,
       (syncLoop w parent rest).2.2) := by
  simp [syncLoop, h]

/-- A per-submodule step that returns an error stops the loop there: the
remaining entries contribute nothing. -/
theorem syncLoop_cons_error (w : SyncWorld) (parent : String) (sub : SubmoduleConfig)
    (rest : List SubmoduleConfig) (calls : List RsyncCall) (e : IoError)
    (h : processSubmodule w parent sub = (calls, Except.error e)) :
    syncLoop w parent (sub :: rest) = (calls, [], some e) := by
  simp [syncLoop, h]

/-- When every entry of the working set yields an outcome, the loop reports
one outcome per entry, in order, and no error. -/
theorem syncLoop_names_of_ok (w : SyncWorld) (parent : String)
    (sel : List SubmoduleConfig)
    (h : ∀ sub ∈ sel, ∃ oc, (processSubmodule w parent sub).2 = Except.ok oc) :
    (syncLoop w parent sel).2.1.map Prod.fst = sel.map SubmoduleConfig.name
    ∧ (syncLoop w parent sel).2.2 = none := by
  induction sel with
  | nil => simp [syncLoop]
  | cons a t ih =>
    obtain ⟨oc, hoc⟩ := h a (List.mem_cons_self a t)
    have hrest := ih (fun sub hs => h sub (List.mem_cons_of_mem a hs))
    have ha : processSubmodule w parent a = ((processSubmodule w parent a).1, Except.ok oc) := by
      rw [← hoc]
    rw [syncLoop_cons_ok w parent a t (processSubmodule w parent a).1 oc ha]
    simp [hrest.1, hrest.2]

/-- A fresh monorepo for init: no config directory, no config file, all
writes succeed. -/
def freshInitWorld : InitWorld := ⟨false, true, none, true⟩

/-- Two configured submodules used by concrete scenarios. -/
def cfgApiWeb : AppConfig := ⟨[defaultEntry "api", defaultEntry "web"]⟩

/-- A nominal sync world over `cfgApiWeb`: every source is a directory,
every target already exists as a directory, rsync spawns and exits 0. -/
def nominalWorld : SyncWorld :=
  ⟨true, some (encodeAppConfig cfgApiWeb), "/mono", some "/parent",
   fun _ => true, fun _ => true, fun _ => true, fun _ => true,
   fun _ => true, fun _ => 0⟩

/-- A world where the target directory of submodule `api` cannot be
created: no target exists, and creation fails exactly for `/parent/api`,
while everything else (both sources, the `web` target, rsync) is healthy. -/
def createFailWorld : SyncWorld :=
  ⟨true, some (encodeAppConfig cfgApiWeb), "/mono", some "/parent",
   fun _ => true, fun _ => false, fun _ => true,
   fun p => p != "/parent/api",
   fun _ => true, fun _ => 0⟩

/-- C1 counterexample: in `createFailWorld` the failure to create the first
submodule's target directory escapes the per-submodule step (the whole sync
call returns the error) and the perfectly healthy second submodule is never
processed: no outcome is recorded for it and rsync is never invoked. -/
theorem C1_counterexample :
    sync_submodules none createFailWorld =
      ([], [], Except.error ⟨IoErrorKind.otherError,
        "failed to create target directory"⟩) := by
  decide

/-- C1 (amended): a filesystem error while creating a submodule's target
directory aborts the entire sync batch: the per-submodule step returns an
error, the loop stops with no outcome for that entry or any later one, no
rsync invocation is made for them, and the error becomes the result of the
whole working-set run, independent of the remaining entries. -/
theorem C1_amended_abort (w : SyncWorld) (parent : String) (sub : SubmoduleConfig)
    (rest : List SubmoduleConfig)
    (h1 : w.sourceOk (pathJoin w.currentDir sub.path) = true)
    (h2 : w.targetExists (pathJoin parent sub.name) = false)
    (h3 : w.createTargetOk (pathJoin parent sub.name) = false) :
    syncLoop w parent (sub :: rest) =
      ([], [], some ⟨IoErrorKind.otherError, "failed to create target directory"⟩)
    ∧ runWorkingSet w parent (sub :: rest) =
      ([], [], Except.error ⟨IoErrorKind.otherError,
        "failed to create target directory"⟩) := by
  have hp : processSubmodule w parent sub =
      ([], Except.error ⟨IoErrorKind.otherError, "failed to create target directory"⟩) := by
    simp [processSubmodule, h1, h2, h3]
  have hl := syncLoop_cons_error w parent sub rest []
    ⟨IoErrorKind.otherError, "failed to create target directory"⟩ hp
  exact ⟨hl, by simp [runWorkingSet, hl]⟩

/-- Witness for C1 (amended) at a concrete input. -/
theorem C1_amended_abort_witness :
    syncLoop createFailWorld "/parent" [defaultEntry "api", defaultEntry "web"] =
      ([], [], some ⟨IoErrorKind.otherError, "failed to create target directory"⟩)
    ∧ runWorkingSet createFailWorld "/parent" [defaultEntry "api", defaultEntry "web"] =
      ([], [], Except.error ⟨IoErrorKind.otherError,
        "failed to create target directory"⟩) :=
  C1_amended_abort createFailWorld "/parent" (defaultEntry "api") [defaultEntry "web"]
    (by decide) (by decide) (by decide)

/-- C2 counterexample: on a monorepo with no hidden config directory,
running init with a whitespace-only name list reports the validation
failure, yet a state change has already happened: the hidden `.monorepo`
directory was created before validation. -/
theorem C2_counterexample :
    freshInitWorld.configDirExists = false
    ∧ (init_monorepo " " freshInitWorld).1.configDirExists = true
    ∧ (init_monorepo " " freshInitWorld).2 = Except.error ⟨IoErrorKind.invalidInput,
        "Submodule list cannot be empty or contain empty names."⟩ := by
  decide

/-- C2 (amended): when init is given an invalid input list (an empty
candidate list or one containing an empty/whitespace-only name), the command
aborts before any registry mutation: the invalid-input error is reported and
the stored registry document is untouched. However the hidden config
directory is created unconditionally before validation, so the final state
is the input state with the config directory marked as existing. -/
theorem C2_amended_no_registry_mutation (w : InitWorld) (s : String)
    (hdir : w.configDirExists = true ∨ w.createDirOk = true)
    (hbad : (rustSplitTrim s).isEmpty = true
      ∨ (rustSplitTrim s).any (fun n => n.isEmpty) = true) :
    (init_monorepo s w).2 = Except.error ⟨IoErrorKind.invalidInput,
      "Submodule list cannot be empty or contain empty names."⟩
    ∧ (init_monorepo s w).1.configFile = w.configFile
    ∧ (init_monorepo s w).1 = { w with configDirExists := true } := by
  have hfail : ((rustSplitTrim s).isEmpty || (rustSplitTrim s).any (fun n => n.isEmpty)) = true := by
    rcases hbad with hb | hb <;> simp [hb]
  cases hde : w.configDirExists with
  | true =>
    have hw : { w with configDirExists := true } = w := by
      cases w
      simp_all
    simp [init_monorepo, hde, initAfterDir, hfail, hw]
  | false =>
    rcases hdir with hd | hd
    · rw [hde] at hd
      exact absurd hd (by simp)
    · simp [init_monorepo, hde, hd, initAfterDir, hfail]

/-- Witness for C2 (amended) at a concrete input. -/
theorem C2_amended_witness :
    (init_monorepo " " freshInitWorld).2 = Except.error ⟨IoErrorKind.invalidInput,
      "Submodule list cannot be empty or contain empty names."⟩
    ∧ (init_monorepo " " freshInitWorld).1.configFile = freshInitWorld.configFile
    ∧ (init_monorepo " " freshInitWorld).1 =
      { freshInitWorld with configDirExists := true } :=
  C2_amended_no_registry_mutation freshInitWorld " " (Or.inr rfl) (Or.inr (by decide))

/-- C3: per-entry failure conditions do not abort the batch. With three
submodules where only the second's source directory is missing and the first
and third have usable targets and a spawnable rsync, the loop records an
outcome for all three entries: the second is skipped with no rsync
invocation, while the first and third are each attempted (exactly one rsync
invocation each, yielding synced or failed from the exit status, which is
arbitrary), and no error aborts the batch. -/
theorem C3_partial_failure_isolation (w : SyncWorld) (parent : String)
    (a b c : SubmoduleConfig)
    (ha1 : w.sourceOk (pathJoin w.currentDir a.path) = true)
    (ha2 : w.targetExists (pathJoin parent a.name) = true →
      w.targetIsDir (pathJoin parent a.name) = true)
    (ha3 : w.targetExists (pathJoin parent a.name) = false →
      w.createTargetOk (pathJoin parent a.name) = true)
    (ha4 : w.rsyncSpawnOk
      (buildRsyncArgs (pathJoin w.currentDir a.path) (pathJoin parent a.name) a) = true)
    (hb : w.sourceOk (pathJoin w.currentDir b.path) = false)
    (hc1 : w.sourceOk (pathJoin w.currentDir c.path) = true)
    (hc2 : w.targetExists (pathJoin parent c.name) = true →
      w.targetIsDir (pathJoin parent c.name) = true)
    (hc3 : w.targetExists (pathJoin parent c.name) = false →
      w.createTargetOk (pathJoin parent c.name) = true)
    (hc4 : w.rsyncSpawnOk
      (buildRsyncArgs (pathJoin w.currentDir c.path) (pathJoin parent c.name) c) = true) :
    ∃ oa oc, (oa = Outcome.synced ∨ oa = Outcome.failed)
      ∧ (oc = Outcome.synced ∨ oc = Outcome.failed)
      ∧ syncLoop w parent [a, b, c] =
        ([buildRsyncArgs (pathJoin w.currentDir a.path) (pathJoin parent a.name) a,
          buildRsyncArgs (pathJoin w.currentDir c.path) (pathJoin parent c.name) c],
         [(a.name, oa), (b.name, Outcome.skippedMissingSource), (c.name, oc)],
         none) := by
  have hpa := processSubmodule_run w parent a ha1 ha2 ha3 ha4
  have hpb := processSubmodule_missing_source w parent b hb
  have hpc := processSubmodule_run w parent c hc1 hc2 hc3 hc4
  refine ⟨if w.rsyncExit (buildRsyncArgs (pathJoin w.currentDir a.path)
      (pathJoin parent a.name) a) = 0 then Outcome.synced else Outcome.failed,
    if w.rsyncExit (buildRsyncArgs (pathJoin w.currentDir c.path)
      (pathJoin parent c.name) c) = 0 then Outcome.synced else Outcome.failed,
    ?_, ?_, ?_⟩
  · split <;> simp
  · split <;> simp
  · simp [syncLoop, hpa, hpb, hpc]

/-- A world over three submodules `api`, `lib`, `web` in which only the
source directory of the second (`lib`) is missing. -/
def missingMiddleWorld : SyncWorld :=
  ⟨true, some (encodeAppConfig ⟨[defaultEntry "api", defaultEntry "lib", defaultEntry "web"]⟩),
   "/mono", some "/parent",
   fun p => p != "/mono/lib", fun _ => true, fun _ => true, fun _ => true,
   fun _ => true, fun _ => 0⟩

/-- Witness for C3 at a concrete input. -/
theorem C3_partial_failure_isolation_witness :
    ∃ oa oc, (oa = Outcome.synced ∨ oa = Outcome.failed)
      ∧ (oc = Outcome.synced ∨ oc = Outcome.failed)
      ∧ syncLoop missingMiddleWorld "/parent"
          [defaultEntry "api", defaultEntry "lib", defaultEntry "web"] =
        ([buildRsyncArgs (pathJoin missingMiddleWorld.currentDir (defaultEntry "api").path)
            (pathJoin "/parent" (defaultEntry "api").name) (defaultEntry "api"),
          buildRsyncArgs (pathJoin missingMiddleWorld.currentDir (defaultEntry "web").path)
            (pathJoin "/parent" (defaultEntry "web").name) (defaultEntry "web")],
         [((defaultEntry "api").name, oa),
          ((defaultEntry "lib").name, Outcome.skippedMissingSource),
          ((defaultEntry "web").name, oc)],
         none) :=
  C3_partial_failure_isolation missingMiddleWorld "/parent"
    (defaultEntry "api") (defaultEntry "lib") (defaultEntry "web")
    (by decide) (by decide) (by decide) (by decide) (by decide)
    (by decide) (by decide) (by decide) (by decide)

/-- C4: a submodule that reaches the external-tool invocation step (source
is a directory, target usable, process spawnable) invokes rsync exactly once
with the fixed flags (archive, delete-extraneous, preserve times, no
perms/owner/group), then one include argument per include rule in configured
order, then one exclude argument per exclude rule in configured order, then
the source path with a trailing separator and the target path without
one. -/
theorem C4_rsync_invocation (w : SyncWorld) (parent : String) (sub : SubmoduleConfig)
    (h1 : w.sourceOk (pathJoin w.currentDir sub.path) = true)
    (h2 : w.targetExists (pathJoin parent sub.name) = true →
      w.targetIsDir (pathJoin parent sub.name) = true)
    (h3 : w.targetExists (pathJoin parent sub.name) = false →
      w.createTargetOk (pathJoin parent sub.name) = true)
    (h4 : w.rsyncSpawnOk
      (buildRsyncArgs (pathJoin w.currentDir sub.path) (pathJoin parent sub.name) sub) = true) :
    (processSubmodule w parent sub).1 =
      [["-a", "--delete", "--times", "--no-perms", "--no-owner", "--no-group"]
        ++ sub.includeRules.map (fun p => "--include=" ++ p)
        ++ sub.excludeRules.map (fun p => "--exclude=" ++ p)
        ++ [pathJoin w.currentDir sub.path ++ "/", pathJoin parent sub.name]] := by
  rw [processSubmodule_run w parent sub h1 h2 h3 h4]
  simp [buildRsyncArgs_spec]

/-- Witness for C4 at a concrete input. -/
theorem C4_rsync_invocation_witness :
    (processSubmodule nominalWorld "/parent" (defaultEntry "api")).1 =
      [["-a", "--delete", "--times", "--no-perms", "--no-owner", "--no-group"]
        ++ (defaultEntry "api").includeRules.map (fun p => "--include=" ++ p)
        ++ (defaultEntry "api").excludeRules.map (fun p => "--exclude=" ++ p)
        ++ [pathJoin nominalWorld.currentDir (defaultEntry "api").path ++ "/",
            pathJoin "/parent" (defaultEntry "api").name]] :=
  C4_rsync_invocation nominalWorld "/parent" (defaultEntry "api")
    (by decide) (by decide) (by decide) (by decide)

/-- C5: registration is idempotent per name. Registering an already-present
name is a no-op; registering a fresh name twice leaves exactly one entry for
it, and the registry after the second registration is identical to the
registry after the first; in particular the registration loop on the list
containing a name twice equals the loop on the list containing it once. -/
theorem C5_idempotent_registration (c : AppConfig) (n : String) :
    registerName (registerName c n) n = registerName c n
    ∧ (c.submodules.any (fun s => s.name == n) = true → registerName c n = c)
    ∧ (c.submodules.countP (fun s => s.name == n) = 0 →
        (registerName c n).submodules.countP (fun s => s.name == n) = 1)
    ∧ registerNames c [n, n] = registerNames c [n] := by
  have hnoop : ∀ d : AppConfig, d.submodules.any (fun s => s.name == n) = true →
      registerName d n = d := by
    intro d hd
    simp [registerName, hd]
  have hidem : registerName (registerName c n) n = registerName c n := by
    cases hany : c.submodules.any (fun s => s.name == n) with
    | true =>
      rw [hnoop c hany]
      exact hnoop c hany
    | false =>
      apply hnoop
      simp [registerName, hany, defaultEntry]
  refine ⟨hidem, hnoop c, ?_, ?_⟩
  · intro hzero
    have hany : c.submodules.any (fun s => s.name == n) = false := by
      rcases List.countP_eq_zero.mp hzero with hall
      simp only [List.any_eq_false]
      intro x hx
      exact hall x hx
    simp [registerName, hany, List.countP_append, hzero, defaultEntry, List.countP_cons]
  · simp [registerNames, hidem]

/-- Witness for C5 at concrete inputs: an empty registry for the idempotence
and count parts, a registry already holding `api` for the no-op part. -/
theorem C5_idempotent_registration_witness :
    registerName (registerName ⟨[]⟩ "api") "api" = registerName ⟨[]⟩ "api"
    ∧ registerName ⟨[defaultEntry "api"]⟩ "api" = ⟨[defaultEntry "api"]⟩
    ∧ (registerName (⟨[]⟩ : AppConfig) "api").submodules.countP
        (fun s => s.name == "api") = 1
    ∧ registerNames ⟨[]⟩ ["api", "api"] = registerNames ⟨[]⟩ ["api"] :=
  ⟨(C5_idempotent_registration ⟨[]⟩ "api").1,
   (C5_idempotent_registration ⟨[defaultEntry "api"]⟩ "api").2.1 (by decide),
   (C5_idempotent_registration ⟨[]⟩ "api").2.2.1 (by decide),
   (C5_idempotent_registration ⟨[]⟩ "api").2.2.2⟩

/-- Reduction of a filtered sync call under nominal preconditions: config
directory present, registry loads, nonempty, parent available, no blank
filter token. The call reduces to the working-set run over exactly the
configured entries whose name appears in the filter list. -/
theorem sync_submodules_filter_reduces (w : SyncWorld) (cfg : AppConfig)
    (s parent : String)
    (hdir : w.configDirExists = true)
    (hfile : w.configFile = some (encodeAppConfig cfg))
    (hne : cfg.submodules.isEmpty = false)
    (hparent : w.parentDir = some parent)
    (hnames : (rustSplitTrim s).any (fun n => n.isEmpty) = false) :
    sync_submodules (some s) w =
      (if (cfg.submodules.filter (fun e => (rustSplitTrim s).contains e.name)).isEmpty then
        ([], [], Except.ok SyncResult.noMatching)
      else runWorkingSet w parent
        (cfg.submodules.filter (fun e => (rustSplitTrim s).contains e.name))) := by
  simp only [sync_submodules, hdir, hfile, load_encodeAppConfig, hne, hparent, hnames,
    Bool.not_true, Bool.false_eq_true, if_false, Bool.not_false]
  simp

/-- C6: with a comma-separated name filter (free of blank tokens), the
working set is exactly the configured entries whose name appears in the
filter list: if it is empty the call reports no matching submodules and
returns success with no rsync invocation, and otherwise (when every selected
entry yields an outcome) exactly the selected entries are processed, in
configured order, and the call returns success. -/
theorem C6_filter_semantics (w : SyncWorld) (cfg : AppConfig) (s parent : String)
    (hdir : w.configDirExists = true)
    (hfile : w.configFile = some (encodeAppConfig cfg))
    (hne : cfg.submodules.isEmpty = false)
    (hparent : w.parentDir = some parent)
    (hnames : (rustSplitTrim s).any (fun n => n.isEmpty) = false)
    (hok : ∀ sub ∈ cfg.submodules.filter (fun e => (rustSplitTrim s).contains e.name),
      ∃ oc, (processSubmodule w parent sub).2 = Except.ok oc) :
    ((cfg.submodules.filter (fun e => (rustSplitTrim s).contains e.name)).isEmpty = true →
      sync_submodules (some s) w = ([], [], Except.ok SyncResult.noMatching))
    ∧ ((cfg.submodules.filter (fun e => (rustSplitTrim s).contains e.name)).isEmpty = false →
      (sync_submodules (some s) w).2.1.map Prod.fst =
        (cfg.submodules.filter (fun e => (rustSplitTrim s).contains e.name)).map
          SubmoduleConfig.name
      ∧ (sync_submodules (some s) w).2.2 = Except.ok SyncResult.completed) := by
  have hred := sync_submodules_filter_reduces w cfg s parent hdir hfile hne hparent hnames
  constructor
  · intro hempty
    rw [hred, if_pos hempty]
  · intro hnonempty
    obtain ⟨hmap, herr⟩ := syncLoop_names_of_ok w parent
      (cfg.submodules.filter (fun e => (rustSplitTrim s).contains e.name)) hok
    rw [hred, if_neg (by rw [hnonempty]; exact Bool.false_ne_true)]
    rcases hl : syncLoop w parent
      (cfg.submodules.filter (fun e => (rustSplitTrim s).contains e.name)) with
      ⟨calls, outs, err⟩
    rw [hl] at hmap herr
    simp only at hmap herr
    subst herr
    constructor
    · simp only [runWorkingSet]
      rw [hl]
      exact hmap
    · simp only [runWorkingSet]
      rw [hl]

/-- Witness for C6 at a concrete input: with `api` and `web` configured,
the filter `api` selects and processes exactly `api`, and the last two
conjuncts record that rsync runs exactly once, for `api`. -/
theorem C6_filter_semantics_witness :
    (((cfgApiWeb.submodules.filter
        (fun e => (rustSplitTrim "api").contains e.name)).isEmpty = true →
      sync_submodules (some "api") nominalWorld =
        ([], [], Except.ok SyncResult.noMatching))
    ∧ ((cfgApiWeb.submodules.filter
        (fun e => (rustSplitTrim "api").contains e.name)).isEmpty = false →
      (sync_submodules (some "api") nominalWorld).2.1.map Prod.fst =
        (cfgApiWeb.submodules.filter
          (fun e => (rustSplitTrim "api").contains e.name)).map SubmoduleConfig.name
      ∧ (sync_submodules (some "api") nominalWorld).2.2 =
        Except.ok SyncResult.completed))
    ∧ (sync_submodules (some "api") nominalWorld).2.1.map Prod.fst = ["api"]
    ∧ (sync_submodules (some "api") nominalWorld).1 =
      [buildRsyncArgs "/mono/api" "/parent/api" (defaultEntry "api")] := by
  have hsel : cfgApiWeb.submodules.filter
      (fun e => (rustSplitTrim "api").contains e.name) = [defaultEntry "api"] := by
    decide
  refine ⟨C6_filter_semantics nominalWorld cfgApiWeb "api" "/parent" rfl rfl (by decide)
    rfl (by decide) ?_, by decide, by decide⟩
  intro sub hsub
  rw [hsel] at hsub
  rw [List.mem_singleton.mp hsub]
  exact ⟨Outcome.synced, by decide⟩

/-- C7: an init invocation whose candidate list is empty or contains an
empty/whitespace-only name fails as a whole with the stored registry
document unchanged: no partial registration happens. This holds whether or
not the config directory exists or can be created. -/
theorem C7_all_or_nothing_validation (w : InitWorld) (s : String)
    (hbad : (rustSplitTrim s).isEmpty = true
      ∨ (rustSplitTrim s).any (fun n => n.isEmpty) = true) :
    (init_monorepo s w).1.configFile = w.configFile
    ∧ ∃ e, (init_monorepo s w).2 = Except.error e := by
  have hfail : ((rustSplitTrim s).isEmpty
      || (rustSplitTrim s).any (fun n => n.isEmpty)) = true := by
    rcases hbad with hb | hb <;> simp [hb]
  cases hde : w.configDirExists with
  | true =>
    refine ⟨by simp [init_monorepo, hde, initAfterDir, hfail], ?_⟩
    exact ⟨⟨IoErrorKind.invalidInput,
      "Submodule list cannot be empty or contain empty names."⟩,
      by simp [init_monorepo, hde, initAfterDir, hfail]⟩
  | false =>
    cases hcd : w.createDirOk with
    | true =>
      refine ⟨by simp [init_monorepo, hde, hcd, initAfterDir, hfail], ?_⟩
      exact ⟨⟨IoErrorKind.invalidInput,
        "Submodule list cannot be empty or contain empty names."⟩,
        by simp [init_monorepo, hde, hcd, initAfterDir, hfail]⟩
    | false =>
      refine ⟨by simp [init_monorepo, hde, hcd], ?_⟩
      exact ⟨⟨IoErrorKind.otherError, "failed to create directory"⟩,
        by simp [init_monorepo, hde, hcd]⟩

/-- Witness for C7 at a concrete input: a list with a blank middle name. -/
theorem C7_all_or_nothing_validation_witness :
    (init_monorepo "api, ,web" freshInitWorld).1.configFile = freshInitWorld.configFile
    ∧ ∃ e, (init_monorepo "api, ,web" freshInitWorld).2 = Except.error e :=
  C7_all_or_nothing_validation freshInitWorld "api, ,web" (Or.inr (by decide))

/-- C8: running init with `api,web` on an empty monorepo succeeds and the
stored registry then loads as exactly two entries named `api` and `web`,
each with path equal to its name, include rules for the lib and test
subtrees and the pubspec.yaml manifest, and exclude rules equal to the
match-everything pattern. -/
theorem C8_default_registration :
    load_or_create_config (init_monorepo "api,web" freshInitWorld).1.configFile =
      Except.ok ⟨[⟨"api", "api", ["lib/***", "pubspec.yaml", "test/***"], ["*"]⟩,
                  ⟨"web", "web", ["lib/***", "pubspec.yaml", "test/***"], ["*"]⟩]⟩
    ∧ (init_monorepo "api,web" freshInitWorld).2 = Except.ok () := by
  decide

/-- C9: saving any registry and loading it back yields an equal registry:
the same entries in the same order with identical name, path, include and
exclude lists (the write itself succeeding whenever the file is
writable). -/
theorem C9_save_load_roundtrip (w : InitWorld) (c : AppConfig)
    (h : w.saveOk = true) :
    load_or_create_config (save_config w c).1.configFile = Except.ok c
    ∧ (save_config w c).2 = Except.ok () := by
  simp [save_config, h, load_encodeAppConfig]

/-- Witness for C9 at a concrete input. -/
theorem C9_save_load_roundtrip_witness :
    load_or_create_config (save_config freshInitWorld cfgApiWeb).1.configFile =
      Except.ok cfgApiWeb
    ∧ (save_config freshInitWorld cfgApiWeb).2 = Except.ok () :=
  C9_save_load_roundtrip freshInitWorld cfgApiWeb rfl

/-- A sync world whose stored registry is empty (and otherwise healthy). -/
def emptyRegistryWorld : SyncWorld :=
  ⟨true, some (encodeAppConfig ⟨[]⟩), "/mono", some "/parent",
   fun _ => true, fun _ => true, fun _ => true, fun _ => true,
   fun _ => true, fun _ => 0⟩

/-- C10 counterexample: with an empty registry, a sync whose filter is a
whitespace-only token does not fail with an invalid-input error: the call
returns success (nothing to sync) because the empty-registry early return
precedes the filter validation. -/
theorem C10_counterexample :
    sync_submodules (some " ") emptyRegistryWorld =
      ([], [], Except.ok SyncResult.nothingToSyncEmpty) := by
  decide

/-- C10 (amended): provided at least one submodule is configured (and the
registry loads and the monorepo root has a parent directory), a filter
containing an empty or whitespace-only token fails the entire sync call with
an invalid-input error, with no entry processed and no rsync invocation;
with an empty registry the call instead returns success without validating
the filter. -/
theorem C10_amended_blank_filter (w : SyncWorld) (cfg : AppConfig) (s parent : String)
    (hdir : w.configDirExists = true)
    (hfile : w.configFile = some (encodeAppConfig cfg))
    (hne : cfg.submodules.isEmpty = false)
    (hparent : w.parentDir = some parent)
    (hbad : (rustSplitTrim s).any (fun n => n.isEmpty) = true) :
    sync_submodules (some s) w =
      ([], [], Except.error ⟨IoErrorKind.invalidInput,
        "Submodule list for sync cannot contain empty names."⟩) := by
  simp [sync_submodules, hdir, hfile, load_encodeAppConfig, hne, hparent, hbad]

/-- Witness for C10 (amended) at a concrete input. -/
theorem C10_amended_blank_filter_witness :
    sync_submodules (some " ") nominalWorld =
      ([], [], Except.error ⟨IoErrorKind.invalidInput,
        "Submodule list for sync cannot contain empty names."⟩) :=
  C10_amended_blank_filter nominalWorld cfgApiWeb " " "/parent" rfl rfl (by decide)
    rfl (by decide)
